import Mathlib

/-!
Verification of the JNI bridge in `enchant_net.cpp` (EnchantNetCore).

The bridge marshals arguments between the Java host and the `easytier`
native library declared in `easytier.h`.  We embed each JNI entry point as
a pure Lean function parametrised by the behaviour of the underlying
library call (given as a function argument).  Native string pointers are
modelled as abstract addresses (`Nat`), with `none` standing for a null
pointer; the bytes a pointer designates are given by a `content` map.
Besides its return value, each embedded entry point yields a trace of
`Event`s recording the library calls, JNI string allocations, and
`free_string` releases it performs, so that ownership and frame claims
can be stated as properties of the trace.
-/

namespace EnchantNet

/-- `struct KeyValuePair` from `easytier.h`: two possibly-null
`const char*` fields, modelled as optional abstract pointers. -/
structure KeyValuePair where
  key : Option Nat
  value : Option Nat
deriving DecidableEq, Repr

/-- A `NativeBridge$NetworkInfo` Java object: two possibly-null Java
strings built from the native key/value pointers. -/
structure NetworkInfo where
  key : Option String
  value : Option String
deriving DecidableEq, Repr

/-- Observable actions a bridge function performs: calls into the native
library, JNI string creations, `free_string` releases, and (never emitted
by this code, but expressible) file-descriptor close/duplicate operations. -/
inductive Event where
  | parseConfigCall : Option String → Event
  | runNetworkInstanceCall : Option String → Event
  | setTunFdCall : Option String → Int → Event
  | retainCall : Option (List (Option String)) → Nat → Event
  | collectCall : Nat → Event
  | getErrorMsgCall : Event
  | newStringCall : Nat → Event
  | freeStringCall : Nat → Event
  | closeFdCall : Int → Event
  | dupFdCall : Int → Event
deriving DecidableEq, Repr

/-- A value-initialised `KeyValuePair` slot of the C++ buffer
`std::vector<KeyValuePair> buf(cap)`: both pointers null. -/
def nullKVP : KeyValuePair := { key := none, value := none }

/-- JNI `NewStringUTF`: builds a Java string by copying the bytes the
native pointer designates. -/
def newStringUTF (content : Nat → String) (p : Nat) : String := content p

/-- `Java_org_fcl_enchantnetcore_easytier_NativeBridge_parseConfig`:
marshals the possibly-null Java string (`GetStringUTFChars` on non-null,
null otherwise) and forwards it to the library's `parse_config`,
returning that status code unchanged. -/
def parseConfig (parse_config : Option String → Int) (cfg : Option String) :
    Int × List Event :=
  let c_cfg : Option String := cfg
  (parse_config c_cfg, [Event.parseConfigCall c_cfg])

/-- `Java_org_fcl_enchantnetcore_easytier_NativeBridge_runNetworkInstance`:
same marshalling as `parseConfig`, forwarding to `run_network_instance`. -/
def runNetworkInstance (run_network_instance : Option String → Int)
    (cfg : Option String) : Int × List Event :=
  let c_cfg : Option String := cfg
  (run_network_instance c_cfg, [Event.runNetworkInstanceCall c_cfg])

/-- `Java_org_fcl_enchantnetcore_easytier_NativeBridge_setTunFd`:
marshals the possibly-null instance name and passes the file descriptor
through to `set_tun_fd` untouched; the trace shows every action taken. -/
def setTunFd (set_tun_fd : Option String → Int → Int)
    (instName : Option String) (fd : Int) : Int × List Event :=
  let c_name : Option String := instName
  (set_tun_fd c_name fd, [Event.setTunFdCall c_name fd])

/-- `Java_org_fcl_enchantnetcore_easytier_NativeBridge_retainNetworkInstance`:
a null Java array gives `n = 0`; each element is marshalled in order
(null elements stay null); the library receives a null pointer when
`n = 0` (`n ? c_names.data() : nullptr`) and the marshalled list with
count `n` otherwise. -/
def retainNetworkInstance
    (retain_network_instance : Option (List (Option String)) → Nat → Int)
    (names : Option (List (Option String))) : Int × List Event :=
  let n : Nat := match names with | none => 0 | some l => l.length
  let c_names : List (Option String) := match names with | none => [] | some l => l
  let arg : Option (List (Option String)) := if n = 0 then none else some c_names
  (retain_network_instance arg n, [Event.retainCall arg n])

/-- The non-null pointers of one buffer record, key first then value,
exactly the pointers `getNetworkInfos` receives ownership of for that
record. -/
def recPtrs (r : KeyValuePair) : List Nat := r.key.toList ++ r.value.toList

/-- The per-record events of the copy loop in `getNetworkInfos`:
`NewStringUTF` on each non-null pointer (key then value), then
`free_string` on each non-null pointer (key then value). -/
def infoEvents (r : KeyValuePair) : List Event :=
  (recPtrs r).map Event.newStringCall ++ (recPtrs r).map Event.freeStringCall

/-- A `NetworkInfo` object built from one buffer record: each non-null
native pointer becomes a Java string of its contents, null stays null. -/
def mkNetworkInfo (content : Nat → String) (r : KeyValuePair) : NetworkInfo :=
  { key := r.key.map (newStringUTF content),
    value := r.value.map (newStringUTF content) }

/-- `Java_org_fcl_enchantnetcore_easytier_NativeBridge_getNetworkInfos`:
`cap` is `maxLen` when positive, else `256`; a buffer of `cap`
value-initialised records is passed to `collect_network_infos` (modelled
as a function from the capacity to the returned count and the buffer
contents after the call, unwritten slots reading as `nullKVP`); a
non-positive count yields an empty array, otherwise the first `count`
records are copied out in order and their strings released. -/
def getNetworkInfos (collect_network_infos : Nat → Int × List KeyValuePair)
    (content : Nat → String) (maxLen : Int) : List NetworkInfo × List Event :=
  let cap : Nat := if 0 < maxLen then maxLen.toNat else 256
  let res := collect_network_infos cap
  let count : Int := res.1
  let buf : List KeyValuePair := res.2
  if count ≤ 0 then
    ([], [Event.collectCall cap])
  else
    ((List.range count.toNat).map (fun i => mkNetworkInfo content (buf.getD i nullKVP)),
     Event.collectCall cap ::
       (List.range count.toNat).flatMap (fun i => infoEvents (buf.getD i nullKVP)))

/-- `Java_org_fcl_enchantnetcore_easytier_NativeBridge_getLastError`:
`get_error_msg` writes an optional pointer into the null-initialised out
slot (modelled as that resulting optional pointer); a null pointer gives
a null Java string, otherwise the message is copied with `NewStringUTF`
and the native string released with `free_string`. -/
def getLastError (get_error_msg : Option Nat) (content : Nat → String) :
    Option String × List Event :=
  match get_error_msg with
  | none => (none, [Event.getErrorMsgCall])
  | some err =>
      (some (newStringUTF content err),
       [Event.getErrorMsgCall, Event.newStringCall err, Event.freeStringCall err])

/-- All pointers whose ownership the collector hands over: the non-null
key/value pointers of the first `count` buffer records, in record order. -/
def recordPtrs (buf : List KeyValuePair) (count : Nat) : List Nat :=
  (List.range count).flatMap (fun i => recPtrs (buf.getD i nullKVP))

/-- Whether an event uses pointer `p` (creating a Java string from it or
releasing it). -/
def mentionsPtr (p : Nat) : Event → Bool
  | Event.newStringCall q => q = p
  | Event.freeStringCall q => q = p
  | _ => false

/-- The subtrace of events that use pointer `p`. -/
def ptrEvents (p : Nat) (tr : List Event) : List Event := tr.filter (mentionsPtr p)

/-- The arguments of the `free_string` calls in a trace, in order. -/
def freedPtrs (tr : List Event) : List Nat :=
  tr.filterMap (fun e => match e with | Event.freeStringCall q => some q | _ => none)

/-- The non-null pointers a `getNetworkInfos` call receives ownership of:
the record pointers of the first `count` slots of the buffer the collector
filled, for the capacity the bridge actually passes. -/
def collectedPtrs (collect_network_infos : Nat → Int × List KeyValuePair)
    (maxLen : Int) : List Nat :=
  let cap : Nat := if 0 < maxLen then maxLen.toNat else 256
  recordPtrs (collect_network_infos cap).2 ((collect_network_infos cap).1).toNat

/-- A concrete collector behaviour: reports one written record whatever
the capacity, its key at address 0 and its value at address 1. -/
def oneRecordCollect : Nat → Int × List KeyValuePair :=
  fun _ => (1, [{ key := some 0, value := some 1 }])

/-- A concrete pointer-contents map. -/
def constContent : Nat → String := fun _ => "x"

/-- C3: collection never fails: for every collector behaviour and every
capacity argument, `getNetworkInfos` returns a plain (possibly empty)
list of records — the result is empty exactly when the collector reports
a non-positive count, and otherwise is a well-formed list of exactly
`count` records. -/
theorem c3_collection_never_fails
    (collect_network_infos : Nat → Int × List KeyValuePair)
    (content : Nat → String) (maxLen : Int) :
    ((getNetworkInfos collect_network_infos content maxLen).1 = [] ↔
      (collect_network_infos (if 0 < maxLen then maxLen.toNat else 256)).1 ≤ 0) ∧
    (getNetworkInfos collect_network_infos content maxLen).1.length =
      (if (collect_network_infos (if 0 < maxLen then maxLen.toNat else 256)).1 ≤ 0
        then 0
        else ((collect_network_infos (if 0 < maxLen then maxLen.toNat else 256)).1).toNat) := by
  unfold getNetworkInfos
  by_cases h : (collect_network_infos (if 0 < maxLen then maxLen.toNat else 256)).1 ≤ 0
  · simp [h]
  · simp [h, List.map_eq_nil_iff, List.range_eq_nil]

/-- C4: each status-returning bridge function returns exactly the status
code of the underlying library call on the marshalled arguments; the
embeddings are total functions into `Int`, so no other failure channel
exists. -/
theorem c4_status_passthrough
    (parse_config run_network_instance : Option String → Int)
    (set_tun_fd : Option String → Int → Int)
    (retain_network_instance : Option (List (Option String)) → Nat → Int)
    (cfg cfg2 instName : Option String) (fd : Int) :
    (parseConfig parse_config cfg).1 = parse_config cfg ∧
    (runNetworkInstance run_network_instance cfg2).1 = run_network_instance cfg2 ∧
    (setTunFd set_tun_fd instName fd).1 = set_tun_fd instName fd ∧
    (retainNetworkInstance retain_network_instance none).1 =
      retain_network_instance none 0 ∧
    ∀ l : List (Option String),
      (retainNetworkInstance retain_network_instance (some l)).1 =
        retain_network_instance (if l.length = 0 then none else some l) l.length := by
  exact ⟨rfl, rfl, rfl, rfl, fun l => rfl⟩

/-- C6: `getLastError` yields an optional string: `none` when the
out-pointer stays null, otherwise the contents of the recorded message. -/
theorem c6_get_last_error (content : Nat → String) (err : Nat) :
    (getLastError none content).1 = none ∧
    (getLastError (some err) content).1 = some (content err) :=
  ⟨rfl, rfl⟩

/-- C8: `setTunFd` forwards the file descriptor unchanged to the single
`set_tun_fd` library call and performs no close or duplicate operation on
any descriptor. -/
theorem c8_set_tun_fd_frame (set_tun_fd : Option String → Int → Int)
    (instName : Option String) (fd : Int) :
    (setTunFd set_tun_fd instName fd).2 = [Event.setTunFdCall instName fd] ∧
    (∀ f : Int, Event.closeFdCall f ∉ (setTunFd set_tun_fd instName fd).2 ∧
      Event.dupFdCall f ∉ (setTunFd set_tun_fd instName fd).2) ∧
    (setTunFd set_tun_fd instName fd).1 = set_tun_fd instName fd := by
  refine ⟨rfl, ?_, rfl⟩
  intro f
  constructor <;> simp [setTunFd]

/-- C9: a null name array makes `retainNetworkInstance` invoke the
library with a null pointer and count 0; a non-null array of `n` names is
passed through with count `n`, in the original order (the marshalled
argument flattens back to the original list). -/
theorem c9_retain_marshalling
    (retain_network_instance : Option (List (Option String)) → Nat → Int) :
    ((retainNetworkInstance retain_network_instance none).1 =
        retain_network_instance none 0 ∧
      (retainNetworkInstance retain_network_instance none).2 =
        [Event.retainCall none 0]) ∧
    ∀ l : List (Option String),
      (retainNetworkInstance retain_network_instance (some l)).2 =
        [Event.retainCall (if l.length = 0 then none else some l) l.length] ∧
      (if l.length = 0 then (none : Option (List (Option String)))
        else some l).getD [] = l := by
  refine ⟨⟨rfl, rfl⟩, ?_⟩
  intro l
  refine ⟨rfl, ?_⟩
  cases l with
  | nil => simp
  | cons a t => simp

/-- C10: a null configuration or name argument is not rejected by the
wrapper: the null pointer is passed straight to the library call and the
library's status code is returned unchanged. -/
theorem c10_null_passthrough
    (parse_config run_network_instance : Option String → Int)
    (set_tun_fd : Option String → Int → Int) (fd : Int) :
    parseConfig parse_config none = (parse_config none, [Event.parseConfigCall none]) ∧
    runNetworkInstance run_network_instance none =
      (run_network_instance none, [Event.runNetworkInstanceCall none]) ∧
    setTunFd set_tun_fd none fd =
      (set_tun_fd none fd, [Event.setTunFdCall none fd]) :=
  ⟨rfl, rfl, rfl⟩

/-- C1 fails on the code: with capacity argument 0 the bridge substitutes
a default capacity of 256, so a collector that reports one record makes
`getNetworkInfos 0` return a non-empty array. -/
theorem c1_counterexample :
    (getNetworkInfos oneRecordCollect constContent 0).1 ≠ [] := by
  decide

/-- C1 (amended): for a non-positive capacity argument the bridge invokes
the collector with the default capacity 256, and the result is empty
exactly when the collector reports a non-positive count — not
unconditionally. -/
theorem c1_amended_default_capacity
    (collect_network_infos : Nat → Int × List KeyValuePair)
    (content : Nat → String) (maxLen : Int) (h : maxLen ≤ 0) :
    (getNetworkInfos collect_network_infos content maxLen).2.head? =
      some (Event.collectCall 256) ∧
    ((getNetworkInfos collect_network_infos content maxLen).1 = [] ↔
      (collect_network_infos 256).1 ≤ 0) := by
  have hc : ¬ 0 < maxLen := by omega
  unfold getNetworkInfos
  simp only [hc, if_false]
  by_cases h2 : (collect_network_infos 256).1 ≤ 0
  · simp [h2]
  · simp [h2, List.map_eq_nil_iff, List.range_eq_nil]

/-- Witness for the amended C1 at capacity 0 with a concrete collector. -/
theorem c1_amended_witness :
    (getNetworkInfos oneRecordCollect constContent 0).2.head? =
      some (Event.collectCall 256) ∧
    ((getNetworkInfos oneRecordCollect constContent 0).1 = [] ↔
      (oneRecordCollect 256).1 ≤ 0) :=
  c1_amended_default_capacity oneRecordCollect constContent 0 (by decide)

/-- C5: for a positive capacity argument `maxLen`, if the collector
reports a count no greater than the buffer length it was given, the
returned array has at most `maxLen` records. -/
theorem c5_length_le_capacity
    (collect_network_infos : Nat → Int × List KeyValuePair)
    (content : Nat → String) (maxLen : Int) (hpos : 0 < maxLen)
    (hcount : (collect_network_infos maxLen.toNat).1 ≤ (maxLen.toNat : Int)) :
    (getNetworkInfos collect_network_infos content maxLen).1.length ≤ maxLen.toNat := by
  unfold getNetworkInfos
  simp only [if_pos hpos]
  by_cases h : (collect_network_infos maxLen.toNat).1 ≤ 0
  · simp [h]
  · simp only [h, if_false, List.length_map, List.length_range]
    omega

/-- Witness for C5 at capacity 2 with a collector reporting one record. -/
theorem c5_witness :
    (getNetworkInfos oneRecordCollect constContent 2).1.length ≤ (2 : Int).toNat :=
  c5_length_le_capacity oneRecordCollect constContent 2 (by decide) (by decide)

/-- C7: order preservation: for every index `i` below the reported
count, the `i`-th element of the returned array is built from the `i`-th
record of the collector's buffer. -/
theorem c7_order_preserved
    (collect_network_infos : Nat → Int × List KeyValuePair)
    (content : Nat → String) (maxLen : Int) (i : Nat)
    (hi : i < ((collect_network_infos (if 0 < maxLen then maxLen.toNat else 256)).1).toNat) :
    (getNetworkInfos collect_network_infos content maxLen).1[i]? =
      some (mkNetworkInfo content
        (((collect_network_infos (if 0 < maxLen then maxLen.toNat else 256)).2).getD i nullKVP)) := by
  unfold getNetworkInfos
  have h : ¬ (collect_network_infos (if 0 < maxLen then maxLen.toNat else 256)).1 ≤ 0 := by
    omega
  simp [h, List.getElem?_map, List.getElem?_range, hi]

/-- Witness for C7 at capacity 3 and index 0 with a concrete collector. -/
theorem c7_witness :
    (getNetworkInfos oneRecordCollect constContent 3).1[0]? =
      some (mkNetworkInfo constContent
        ((oneRecordCollect (if 0 < (3 : Int) then (3 : Int).toNat else 256)).2.getD 0 nullKVP)) :=
  c7_order_preserved oneRecordCollect constContent 3 0 (by decide)

/-- Filtering a list of addresses for an absent value gives nothing. -/
theorem filter_eq_empty_of_not_mem (p : Nat) (l : List Nat) (hp : p ∉ l) :
    l.filter (fun q => q = p) = [] := by
  induction l with
  | nil => rfl
  | cons a t ih =>
      simp only [List.mem_cons, not_or] at hp
      have hne : ¬ a = p := fun h => hp.1 h.symm
      simp [List.filter_cons, hne, ih hp.2]

/-- Filtering a duplicate-free list of addresses for a member keeps
exactly that one occurrence. -/
theorem filter_eq_single_of_nodup (p : Nat) (l : List Nat) (hnd : l.Nodup)
    (hp : p ∈ l) : l.filter (fun q => q = p) = [p] := by
  induction l with
  | nil => cases hp
  | cons a t ih =>
      rcases List.mem_cons.mp hp with h1 | h1
      · subst h1
        have hnt : p ∉ t := (List.nodup_cons.mp hnd).1
        simp [List.filter_cons, filter_eq_empty_of_not_mem p t hnt]
      · have hne : a ≠ p := by
          rintro rfl
          exact (List.nodup_cons.mp hnd).1 h1
        simp [List.filter_cons, hne, ih (List.nodup_cons.mp hnd).2 h1]

/-- `filter` distributes over `flatMap`. -/
theorem filter_flatMap_comm {α β : Type} (f : β → Bool) (g : α → List β)
    (l : List α) :
    (l.flatMap g).filter f = l.flatMap (fun a => (g a).filter f) := by
  induction l with
  | nil => rfl
  | cons a t ih => simp [List.flatMap_cons, List.filter_append, ih]

/-- The events of one record that use pointer `p`: its occurrences as a
`NewStringUTF` argument followed by its occurrences as a `free_string`
argument. -/
theorem filter_mentions_infoEvents (p : Nat) (r : KeyValuePair) :
    (infoEvents r).filter (mentionsPtr p) =
      ((recPtrs r).filter (fun q => q = p)).map Event.newStringCall ++
      ((recPtrs r).filter (fun q => q = p)).map Event.freeStringCall := by
  unfold infoEvents
  rw [List.filter_append]
  congr 1
  · induction recPtrs r with
    | nil => rfl
    | cons a t ih => by_cases h : a = p <;> simp [mentionsPtr, h, ih]
  · induction recPtrs r with
    | nil => rfl
    | cons a t ih => by_cases h : a = p <;> simp [mentionsPtr, h, ih]

/-- If `p` occurs nowhere in the concatenation, the per-chunk
use/release pattern for `p` is empty. -/
theorem flatMap_ptr_filter_empty {α : Type} (p : Nat) (g : α → List Nat)
    (ls : List α) (hp : p ∉ ls.flatMap g) :
    ls.flatMap (fun a =>
      ((g a).filter (fun q => q = p)).map Event.newStringCall ++
      ((g a).filter (fun q => q = p)).map Event.freeStringCall) = [] := by
  induction ls with
  | nil => rfl
  | cons a t ih =>
      rw [List.flatMap_cons] at hp
      simp only [List.mem_append, not_or] at hp
      rw [List.flatMap_cons, filter_eq_empty_of_not_mem p (g a) hp.1]
      simp [ih hp.2]

/-- If the concatenation is duplicate-free and `p` occurs in it, the
per-chunk use/release pattern for `p` is exactly one `NewStringUTF`
followed by one `free_string`. -/
theorem flatMap_ptr_filter_single {α : Type} (p : Nat) (g : α → List Nat)
    (ls : List α) (hnd : (ls.flatMap g).Nodup) (hp : p ∈ ls.flatMap g) :
    ls.flatMap (fun a =>
      ((g a).filter (fun q => q = p)).map Event.newStringCall ++
      ((g a).filter (fun q => q = p)).map Event.freeStringCall) =
      [Event.newStringCall p, Event.freeStringCall p] := by
  induction ls with
  | nil => cases hp
  | cons a t ih =>
      rw [List.flatMap_cons] at hnd hp
      rw [List.flatMap_cons]
      have hparts := List.nodup_append.mp hnd
      rcases List.mem_append.mp hp with h1 | h1
      · have hpd : p ∉ t.flatMap g := fun hmem => hparts.2.2 h1 hmem
        rw [filter_eq_single_of_nodup p (g a) hparts.1 h1,
          flatMap_ptr_filter_empty p g t hpd]
        simp
      · have hpa : p ∉ g a := fun hmem => hparts.2.2 hmem h1
        rw [filter_eq_empty_of_not_mem p (g a) hpa]
        simp [ih hparts.2.1 h1]

/-- The subtrace of a `getNetworkInfos` run that uses pointer `p`, as the
concatenation over the copied records of `p`'s use/release pattern. -/
theorem ptrEvents_getNetworkInfos
    (collect_network_infos : Nat → Int × List KeyValuePair)
    (content : Nat → String) (maxLen : Int) (p : Nat) :
    ptrEvents p (getNetworkInfos collect_network_infos content maxLen).2 =
      (List.range
        ((collect_network_infos (if 0 < maxLen then maxLen.toNat else 256)).1).toNat).flatMap
        (fun i =>
          ((recPtrs ((collect_network_infos
              (if 0 < maxLen then maxLen.toNat else 256)).2.getD i nullKVP)).filter
              (fun q => q = p)).map Event.newStringCall ++
          ((recPtrs ((collect_network_infos
              (if 0 < maxLen then maxLen.toNat else 256)).2.getD i nullKVP)).filter
              (fun q => q = p)).map Event.freeStringCall) := by
  unfold getNetworkInfos
  by_cases h : (collect_network_infos (if 0 < maxLen then maxLen.toNat else 256)).1 ≤ 0
  · have hz : ((collect_network_infos (if 0 < maxLen then maxLen.toNat else 256)).1).toNat = 0 := by
      omega
    simp [h, hz, ptrEvents, mentionsPtr]
  · simp only [h, if_false]
    unfold ptrEvents
    rw [List.filter_cons]
    have hm : mentionsPtr p
        (Event.collectCall (if 0 < maxLen then maxLen.toNat else 256)) = false := rfl
    rw [hm, filter_flatMap_comm]
    simp only [Bool.false_eq_true, if_false, filter_mentions_infoEvents]

/-- C2: string ownership across the boundary: assuming the pointers the
collector hands over are distinct allocations, every non-null key or
value pointer of a copied record appears in the trace as exactly one
`NewStringUTF` use followed by exactly one `free_string` release (so it
is freed exactly once and never used afterwards); pointers not received
from the collector are never used or freed; `getLastError` uses and then
releases a non-null error message exactly once, and frees nothing when
the message is null. -/
theorem c2_ownership
    (collect_network_infos : Nat → Int × List KeyValuePair)
    (content : Nat → String) (maxLen : Int) (err : Nat)
    (hnd : (collectedPtrs collect_network_infos maxLen).Nodup) :
    (∀ p ∈ collectedPtrs collect_network_infos maxLen,
      ptrEvents p (getNetworkInfos collect_network_infos content maxLen).2 =
        [Event.newStringCall p, Event.freeStringCall p]) ∧
    (∀ p, p ∉ collectedPtrs collect_network_infos maxLen →
      ptrEvents p (getNetworkInfos collect_network_infos content maxLen).2 = []) ∧
    ptrEvents err (getLastError (some err) content).2 =
      [Event.newStringCall err, Event.freeStringCall err] ∧
    freedPtrs (getLastError none content).2 = [] := by
  refine ⟨?_, ?_, ?_, rfl⟩
  · intro p hp
    rw [ptrEvents_getNetworkInfos]
    exact flatMap_ptr_filter_single p _ _ hnd hp
  · intro p hp
    rw [ptrEvents_getNetworkInfos]
    exact flatMap_ptr_filter_empty p _ _ hp
  · simp [getLastError, ptrEvents, mentionsPtr]

/-- Witness for C2 with a concrete collector whose two record pointers
are distinct: pointer 0 is used once and then freed once. -/
theorem c2_witness :
    ptrEvents 0 (getNetworkInfos oneRecordCollect constContent 4).2 =
      [Event.newStringCall 0, Event.freeStringCall 0] :=
  (c2_ownership oneRecordCollect constContent 4 7 (by decide)).1 0 (by decide)

end EnchantNet
